import Mathlib

/-!
Verification of the bounded blocking queue and its producer/consumer tasks
from `assignment1_producer_consumer` (files `blocking_queue.py`, `producer.py`,
`consumer.py`).

Embedding conventions.  The Python `BlockingQueue` guards all state by one
lock; every public method is a critical section that reads and writes the
state atomically.  We therefore embed each method as a pure function from the
queue state (as seen on entry of the critical section) to its result and the
state on exit.  The `Condition.wait` calls are given their *no-interference*
semantics: a `wait` with a finite timeout expires and returns `False`, and a
`wait` with no timeout never returns, so an operation that enters the wait
loop with no timeout is modelled as returning `none` ("blocks").  A `timeout`
argument is `Option Nat` (`none` = Python `timeout=None`); only its presence
matters to the no-interference semantics, matching the code, where any finite
timeout eventually makes `wait` return `False`.

The producer and consumer threads interact with the shared queue and with
their stop events, both of which other threads mutate between loop
iterations.  Their loops are embedded with *oracles*: functions of the
iteration index giving the value each shared read returns at that iteration
(the stop-event value, the result of `put`/`get`, the `is_shutdown` /
`is_empty` snapshots).  This captures every possible interleaving at the
granularity of the loop's shared-memory operations.
-/

namespace PCQ

/-- State of `BlockingQueue` (`blocking_queue.py`): the deque `_queue`
(head of the list = left end of the deque, i.e. the oldest item), the
immutable `_capacity`, the `_shutdown` flag and the four statistics
counters. -/
structure BlockingQueue (α : Type) where
  _capacity : Nat
  _queue : List α
  _shutdown : Bool
  _total_items_added : Nat
  _total_items_removed : Nat
  _total_blocked_puts : Nat
  _total_blocked_gets : Nat
  deriving Repr, DecidableEq

namespace BlockingQueue

/-- `BlockingQueue.__init__`: raises `ValueError` when `capacity < 1`,
otherwise constructs the empty, non-shut-down queue with zeroed
statistics.  The Python argument is an `int`, hence `Int` here. -/
def init (α : Type) (capacity : Int) : Except String (BlockingQueue α) :=
  if capacity < 1 then
    .error "Capacity must be at least 1"
  else
    .ok { _capacity := capacity.toNat
          _queue := []
          _shutdown := false
          _total_items_added := 0
          _total_items_removed := 0
          _total_blocked_puts := 0
          _total_blocked_gets := 0 }

/-- The `capacity` property. -/
def capacity (q : BlockingQueue α) : Nat := q._capacity

/-- `BlockingQueue.put`.  Returns `none` when the call blocks forever
(full, not shut down, no timeout, no interference); otherwise
`some (success, state on exit)`. -/
def put (q : BlockingQueue α) (item : α) (timeout : Option Nat) :
    Option (Bool × BlockingQueue α) :=
  if q._capacity ≤ q._queue.length ∧ q._shutdown = false then
    -- wait loop entered: `_total_blocked_puts` is incremented once
    match timeout with
    | some _ => some (false, { q with _total_blocked_puts := q._total_blocked_puts + 1 })
    | none => none
  else if q._shutdown then
    some (false, q)
  else
    some (true, { q with
      _queue := q._queue ++ [item]
      _total_items_added := q._total_items_added + 1 })

/-- `BlockingQueue.get`.  Returns `none` when the call blocks forever
(empty, not shut down, no timeout, no interference); otherwise
`some (success, item?, state on exit)`. -/
def get (q : BlockingQueue α) (timeout : Option Nat) :
    Option (Bool × Option α × BlockingQueue α) :=
  match q._queue with
  | [] =>
    if q._shutdown then
      -- wait loop skipped; `shutdown and empty` holds
      some (false, none, q)
    else
      -- wait loop entered: `_total_blocked_gets` is incremented once
      match timeout with
      | some _ => some (false, none, { q with _total_blocked_gets := q._total_blocked_gets + 1 })
      | none => none
  | x :: rest =>
    -- wait loop not entered (non-empty); `shutdown and empty` is false;
    -- `popleft` removes the oldest item
    some (true, some x, { q with
      _queue := rest
      _total_items_removed := q._total_items_removed + 1 })

/-- `BlockingQueue.size`. -/
def size (q : BlockingQueue α) : Nat := q._queue.length

/-- `BlockingQueue.is_empty`. -/
def is_empty (q : BlockingQueue α) : Bool := q._queue.length == 0

/-- `BlockingQueue.is_full`. -/
def is_full (q : BlockingQueue α) : Bool := q._capacity ≤ q._queue.length

/-- `BlockingQueue.shutdown`: latches the flag (the `notify_all` calls do
not change observable state). -/
def shutdown (q : BlockingQueue α) : BlockingQueue α :=
  { q with _shutdown := true }

/-- `BlockingQueue.is_shutdown`. -/
def is_shutdown (q : BlockingQueue α) : Bool := q._shutdown

/-- `BlockingQueue.clear`: empties the deque (the `notify_all` call does
not change observable state). -/
def clear (q : BlockingQueue α) : BlockingQueue α :=
  { q with _queue := [] }

/-- The dictionary returned by `BlockingQueue.get_statistics`. -/
structure Statistics where
  total_items_added : Nat
  total_items_removed : Nat
  blocked_puts : Nat
  blocked_gets : Nat
  current_size : Nat
  capacity : Nat
  deriving Repr, DecidableEq

/-- `BlockingQueue.get_statistics`. -/
def get_statistics (q : BlockingQueue α) : Statistics :=
  { total_items_added := q._total_items_added
    total_items_removed := q._total_items_removed
    blocked_puts := q._total_blocked_puts
    blocked_gets := q._total_blocked_gets
    current_size := q._queue.length
    capacity := q._capacity }

end BlockingQueue

/-- One call on the queue's public mutating interface, with its `timeout`
argument where the Python method takes one. -/
inductive QueueOp (α : Type) where
  | put (item : α) (timeout : Option Nat)
  | get (timeout : Option Nat)
  | clear
  | shutdown
  deriving Repr, DecidableEq

/-- The queue state after one call.  A `put`/`get` that blocks forever
yields no exit state (its critical section never ends); for such a call the
fold below keeps the entry state, whose buffer the blocked call does not
touch. -/
def stepOp (q : BlockingQueue α) : QueueOp α → BlockingQueue α
  | .put x t => ((q.put x t).map Prod.snd).getD q
  | .get t => ((q.get t).map (fun r => r.2.2)).getD q
  | .clear => q.clear
  | .shutdown => q.shutdown

/-- The queue state after a sequence of calls, applied left to right. -/
def runOps (q : BlockingQueue α) (ops : List (QueueOp α)) : BlockingQueue α :=
  ops.foldl stepOp q

/-- `Producer.run` (`producer.py`).  The `for item in self._source` loop
first advances the source iterator, then checks `self._stop_event`, then
calls `self._queue.put(item)` (no timeout) and breaks on a `False` result,
else increments `self._items_produced`.  Shared reads are oracles of the
iteration index `i`: `stopAt i` is the value `is_set()` returns at
iteration `i`, and `putRes i` the result of the `put` call of iteration
`i`.  Returns `(items_produced, items read from the source)` accumulated
from iteration `i` on. -/
def producerRun (stopAt putRes : Nat → Bool) : List α → Nat → Nat × Nat
  | [], _ => (0, 0)
  | _ :: xs, i =>
    if stopAt i then (0, 1)
    else if putRes i then
      let r := producerRun stopAt putRes xs (i + 1)
      (r.1 + 1, r.2 + 1)
    else (0, 1)

/-- `Consumer.run` (`consumer.py`).  Loop: check `self._stop_event`; call
`self._queue.get(timeout)`; on failure, break iff `is_shutdown() and
is_empty()`, else continue; on success append the item and increment
`self._items_consumed`.  Shared reads are oracles of the iteration index:
`stopAt i` is the stop-event value, `getAt i` the `get` result (`none` =
`(False, None)`), `sdAt i` and `emAt i` the `is_shutdown`/`is_empty`
snapshots taken after a failed `get`.  Runs at most `fuel` iterations from
iteration `i`; returns the items appended to the destination and the exit
reason: `some true` = stop event, `some false` = shutdown-and-empty,
`none` = still looping when the fuel ran out. -/
def consumerRun (stopAt : Nat → Bool) (getAt : Nat → Option α) (sdAt emAt : Nat → Bool) :
    Nat → Nat → List α × Option Bool
  | 0, _ => ([], none)
  | fuel + 1, i =>
    if stopAt i then ([], some true)
    else
      match getAt i with
      | none =>
        if sdAt i && emAt i then ([], some false)
        else consumerRun stopAt getAt sdAt emAt fuel (i + 1)
      | some x =>
        let r := consumerRun stopAt getAt sdAt emAt fuel (i + 1)
        (x :: r.1, r.2)

/-- Sequential `put`s of a list of items (no timeout, as the producer calls
it), stopping at the first failure.  Returns whether every `put` succeeded
and the final state; a `put` that would block forever counts as a
failure with the entry state kept. -/
def putList (q : BlockingQueue α) : List α → Bool × BlockingQueue α
  | [] => (true, q)
  | x :: xs =>
    match q.put x none with
    | some (true, q') => putList q' xs
    | some (false, q') => (false, q')
    | none => (false, q)

/-- `n` sequential `get`s with timeout 0 (never blocking), collecting the
successfully retrieved items in order and stopping at the first failure. -/
def getList (q : BlockingQueue α) : Nat → List α × BlockingQueue α
  | 0 => ([], q)
  | n + 1 =>
    match q.get (some 0) with
    | some (true, some x, q') =>
      let r := getList q' n
      (x :: r.1, r.2)
    | _ => ([], q)

/-- The counter/size balance: every item ever added is either already
removed or still buffered. -/
def statInv (q : BlockingQueue α) : Prop :=
  q._total_items_added = q._total_items_removed + q._queue.length

end PCQ

namespace PCQ

namespace BlockingQueue

/-! Exit-state characterization of `put` and `get`, one lemma per branch of
the Python control flow. -/

theorem put_of_shutdown (q : BlockingQueue α) (x : α) (t : Option Nat)
    (hs : q._shutdown = true) : q.put x t = some (false, q) := by
  unfold put
  simp [hs]

theorem put_of_space (q : BlockingQueue α) (x : α) (t : Option Nat)
    (hlt : q._queue.length < q._capacity) (hs : q._shutdown = false) :
    q.put x t = some (true, { q with
      _queue := q._queue ++ [x]
      _total_items_added := q._total_items_added + 1 }) := by
  unfold put
  simp [hs, not_le.2 hlt]

theorem put_of_full_timeout (q : BlockingQueue α) (x : α) (n : Nat)
    (hf : q._capacity ≤ q._queue.length) (hs : q._shutdown = false) :
    q.put x (some n) = some (false, { q with
      _total_blocked_puts := q._total_blocked_puts + 1 }) := by
  unfold put
  simp [hf, hs]

theorem put_of_full_block (q : BlockingQueue α) (x : α)
    (hf : q._capacity ≤ q._queue.length) (hs : q._shutdown = false) :
    q.put x none = none := by
  unfold put
  simp [hf, hs]

theorem get_of_cons (q : BlockingQueue α) (t : Option Nat) (x : α) (rest : List α)
    (h : q._queue = x :: rest) :
    q.get t = some (true, some x, { q with
      _queue := rest
      _total_items_removed := q._total_items_removed + 1 }) := by
  unfold get
  rw [h]

theorem get_of_nil_shutdown (q : BlockingQueue α) (t : Option Nat)
    (h : q._queue = []) (hs : q._shutdown = true) :
    q.get t = some (false, none, q) := by
  unfold get
  rw [h]
  simp [hs]

theorem get_of_nil_timeout (q : BlockingQueue α) (n : Nat)
    (h : q._queue = []) (hs : q._shutdown = false) :
    q.get (some n) = some (false, none, { q with
      _total_blocked_gets := q._total_blocked_gets + 1 }) := by
  unfold get
  rw [h]
  simp [hs]

theorem get_of_nil_block (q : BlockingQueue α)
    (h : q._queue = []) (hs : q._shutdown = false) :
    q.get none = none := by
  unfold get
  rw [h]
  simp [hs]

end BlockingQueue

open BlockingQueue in
/-- Exhaustive case list for one queue call: the state is unchanged, an
item is appended (only with strictly free space), the oldest item is
popped, a blocked counter is bumped, or the call is `clear`/`shutdown`. -/
theorem stepOp_cases (q : BlockingQueue α) (op : QueueOp α) :
    stepOp q op = q ∨
    (∃ x, q._queue.length < q._capacity ∧ stepOp q op = { q with
        _queue := q._queue ++ [x]
        _total_items_added := q._total_items_added + 1 }) ∨
    (∃ x rest, q._queue = x :: rest ∧ stepOp q op = { q with
        _queue := rest
        _total_items_removed := q._total_items_removed + 1 }) ∨
    stepOp q op = { q with _total_blocked_puts := q._total_blocked_puts + 1 } ∨
    stepOp q op = { q with _total_blocked_gets := q._total_blocked_gets + 1 } ∨
    (op = QueueOp.clear ∧ stepOp q op = q.clear) ∨
    stepOp q op = q.shutdown := by
  cases op with
  | put x t =>
    by_cases hs : q._shutdown = true
    · exact Or.inl (by simp [stepOp, put_of_shutdown q x t hs])
    · have hs' : q._shutdown = false := by simpa using hs
      by_cases hf : q._capacity ≤ q._queue.length
      · cases t with
        | none => exact Or.inl (by simp [stepOp, put_of_full_block q x hf hs'])
        | some n =>
          exact Or.inr (Or.inr (Or.inr (Or.inl
            (by simp [stepOp, put_of_full_timeout q x n hf hs']))))
      · exact Or.inr (Or.inl ⟨x, not_le.1 hf,
          by simp [stepOp, put_of_space q x t (not_le.1 hf) hs']⟩)
  | get t =>
    cases hq : q._queue with
    | cons y rest =>
      exact Or.inr (Or.inr (Or.inl ⟨y, rest, rfl,
        by simp [stepOp, get_of_cons q t y rest hq]⟩))
    | nil =>
      by_cases hs : q._shutdown = true
      · exact Or.inl (by simp [stepOp, get_of_nil_shutdown q t hq hs])
      · have hs' : q._shutdown = false := by simpa using hs
        cases t with
        | none => exact Or.inl (by simp [stepOp, get_of_nil_block q hq hs'])
        | some n =>
          exact Or.inr (Or.inr (Or.inr (Or.inr (Or.inl
            (by simp [stepOp, get_of_nil_timeout q n hq hs', hq])))))
  | clear => exact Or.inr (Or.inr (Or.inr (Or.inr (Or.inr (Or.inl ⟨rfl, rfl⟩)))))
  | shutdown => exact Or.inr (Or.inr (Or.inr (Or.inr (Or.inr (Or.inr rfl)))))

theorem stepOp_capacity (q : BlockingQueue α) (op : QueueOp α) :
    (stepOp q op)._capacity = q._capacity := by
  rcases stepOp_cases q op with h | ⟨x, _, h⟩ | ⟨x, rest, _, h⟩ | h | h | ⟨_, h⟩ | h <;>
    simp [h, BlockingQueue.clear, BlockingQueue.shutdown]

theorem stepOp_size_le (q : BlockingQueue α) (op : QueueOp α)
    (h : q._queue.length ≤ q._capacity) :
    (stepOp q op)._queue.length ≤ (stepOp q op)._capacity := by
  rcases stepOp_cases q op with he | ⟨x, hlt, he⟩ | ⟨x, rest, hq, he⟩ | he | he | ⟨_, he⟩ | he
  · rw [he]; exact h
  · rw [he]; simp; omega
  · rw [he]
    have hlen := congrArg List.length hq
    simp at hlen
    simp
    omega
  · rw [he]; exact h
  · rw [he]; exact h
  · rw [he]; simp [BlockingQueue.clear]
  · rw [he]; exact h

theorem stepOp_shutdown_latch (q : BlockingQueue α) (op : QueueOp α)
    (h : q._shutdown = true) : (stepOp q op)._shutdown = true := by
  rcases stepOp_cases q op with he | ⟨x, _, he⟩ | ⟨x, rest, _, he⟩ | he | he | ⟨_, he⟩ | he <;>
    simp [he, BlockingQueue.clear, BlockingQueue.shutdown, h]

theorem stepOp_statInv (q : BlockingQueue α) (op : QueueOp α)
    (hop : op ≠ QueueOp.clear) (h : statInv q) : statInv (stepOp q op) := by
  unfold statInv at h ⊢
  rcases stepOp_cases q op with he | ⟨x, _, he⟩ | ⟨x, rest, hq, he⟩ | he | he | ⟨hcl, _⟩ | he
  · rw [he]; exact h
  · rw [he]; simp; omega
  · rw [he]
    have := congrArg List.length hq
    simp at this
    simp
    omega
  · rw [he]; exact h
  · rw [he]; exact h
  · exact absurd hcl hop
  · rw [he]; exact h

theorem runOps_capacity (ops : List (QueueOp α)) :
    ∀ q : BlockingQueue α, (runOps q ops)._capacity = q._capacity := by
  induction ops with
  | nil => intro q; rfl
  | cons op ops ih =>
    intro q
    calc (runOps (stepOp q op) ops)._capacity = (stepOp q op)._capacity := ih _
    _ = q._capacity := stepOp_capacity q op

theorem runOps_size_le (ops : List (QueueOp α)) :
    ∀ q : BlockingQueue α, q._queue.length ≤ q._capacity →
      (runOps q ops)._queue.length ≤ (runOps q ops)._capacity := by
  induction ops with
  | nil => intro q h; exact h
  | cons op ops ih => intro q h; exact ih _ (stepOp_size_le q op h)

theorem runOps_shutdown_latch (ops : List (QueueOp α)) :
    ∀ q : BlockingQueue α, q._shutdown = true → (runOps q ops)._shutdown = true := by
  induction ops with
  | nil => intro q h; exact h
  | cons op ops ih => intro q h; exact ih _ (stepOp_shutdown_latch q op h)

theorem runOps_statInv (ops : List (QueueOp α)) (hops : QueueOp.clear ∉ ops) :
    ∀ q : BlockingQueue α, statInv q → statInv (runOps q ops) := by
  induction ops with
  | nil => intro q h; exact h
  | cons op ops ih =>
    intro q h
    have hop : op ≠ QueueOp.clear := fun he => hops (he ▸ List.mem_cons_self op ops)
    exact ih (fun hm => hops (List.mem_cons_of_mem op hm)) _ (stepOp_statInv q op hop h)

/-- A successful construction yields exactly the fresh state. -/
theorem init_ok (α : Type) (c : Int) (q : BlockingQueue α)
    (h : BlockingQueue.init α c = .ok q) :
    1 ≤ c ∧ q = { _capacity := c.toNat
                  _queue := []
                  _shutdown := false
                  _total_items_added := 0
                  _total_items_removed := 0
                  _total_blocked_puts := 0
                  _total_blocked_gets := 0 } := by
  unfold BlockingQueue.init at h
  split at h
  · cases h
  · rename_i hc
    cases h
    exact ⟨not_lt.1 hc, rfl⟩

open BlockingQueue in
/-- A `get` that hands back an item reports success and pops exactly the
oldest buffered item. -/
theorem get_success_pops (r : BlockingQueue α) (t : Option Nat) (b : Bool) (y : α)
    (r' : BlockingQueue α) (h : r.get t = some (b, some y, r')) :
    b = true ∧ r._queue = y :: r'._queue := by
  cases hq : r._queue with
  | nil =>
    by_cases hs : r._shutdown = true
    · rw [get_of_nil_shutdown r t hq hs] at h
      simp at h
    · have hs' : r._shutdown = false := by simpa using hs
      cases t with
      | none =>
        rw [get_of_nil_block r hq hs'] at h
        cases h
      | some n =>
        rw [get_of_nil_timeout r n hq hs'] at h
        simp at h
  | cons z rest =>
    rw [get_of_cons r t z rest hq] at h
    injection h with h1
    injection h1 with hb h2
    injection h2 with hy hr
    injection hy with hzy
    cases hb
    cases hzy
    cases hr
    exact ⟨rfl, rfl⟩

open BlockingQueue in
/-- When the whole list fits, sequential `put`s all succeed and append the
list in order, counting each item exactly once. -/
theorem putList_ok (xs : List α) : ∀ q : BlockingQueue α, q._shutdown = false →
    q._queue.length + xs.length ≤ q._capacity →
    putList q xs = (true, { q with
      _queue := q._queue ++ xs
      _total_items_added := q._total_items_added + xs.length }) := by
  induction xs with
  | nil =>
    intro q _ _
    simp [putList]
  | cons x xs ih =>
    intro q hs hlen
    have hlt : q._queue.length < q._capacity := by
      simp at hlen
      omega
    rw [putList, put_of_space q x none hlt hs]
    show putList _ xs = _
    rw [ih { q with
        _queue := q._queue ++ [x]
        _total_items_added := q._total_items_added + 1 } hs
      (by simp; simp at hlen; omega)]
    simp
    omega

open BlockingQueue in
/-- Draining a buffer of known contents with exactly as many `get`s returns
those contents in order. -/
theorem getList_fst (xs : List α) : ∀ q : BlockingQueue α, q._queue = xs →
    (getList q xs.length).1 = xs := by
  induction xs with
  | nil =>
    intro q _
    rfl
  | cons x rest ih =>
    intro q h
    rw [List.length_cons, getList, get_of_cons q (some 0) x rest h]
    show x :: (getList _ rest.length).1 = x :: rest
    rw [ih _ rfl]

open BlockingQueue in
/-- On a buffer already at (or beyond) capacity, `put` either blocks or
fails without touching the buffer. -/
theorem put_full_no_append (q : BlockingQueue α) (x : α) (t : Option Nat)
    (h : q._capacity ≤ q._queue.length) :
    q.put x t = none ∨ ∃ q', q.put x t = some (false, q') ∧ q'._queue = q._queue := by
  by_cases hs : q._shutdown = true
  · exact Or.inr ⟨q, put_of_shutdown q x t hs, rfl⟩
  · have hs' : q._shutdown = false := by simpa using hs
    cases t with
    | none => exact Or.inl (put_of_full_block q x h hs')
    | some n => exact Or.inr ⟨_, put_of_full_timeout q x n h hs', rfl⟩

end PCQ

/-! ## Claims -/

/-- C1: On a shut-down queue, `get` with any timeout still succeeds while
the buffer is non-empty, returning and removing the oldest buffered item;
on an empty shut-down queue it returns failure with no item and leaves the
state unchanged — shutdown does not discard unconsumed data. -/
theorem C1_get_after_shutdown_drains (α : Type) (q : PCQ.BlockingQueue α)
    (t : Option Nat) (hs : q._shutdown = true) :
    (∀ x rest, q._queue = x :: rest →
      q.get t = some (true, some x, { q with
        _queue := rest
        _total_items_removed := q._total_items_removed + 1 })) ∧
    (q._queue = [] → q.get t = some (false, none, q)) :=
  ⟨fun x rest h => PCQ.BlockingQueue.get_of_cons q t x rest h,
   fun h => PCQ.BlockingQueue.get_of_nil_shutdown q t h hs⟩

/-- Witness for C1: a queue holding one item, after `shutdown()`, still
hands the item to `get()`; the next `get()` on the now-empty shut-down
queue returns failure. -/
theorem C1_get_after_shutdown_drains_witness :
    ((⟨2, [7], false, 1, 0, 0, 0⟩ : PCQ.BlockingQueue Nat).shutdown).get none =
      some (true, some 7, ⟨2, [], true, 1, 1, 0, 0⟩) ∧
    (⟨2, [], true, 1, 1, 0, 0⟩ : PCQ.BlockingQueue Nat).get none =
      some (false, none, ⟨2, [], true, 1, 1, 0, 0⟩) :=
  ⟨(C1_get_after_shutdown_drains Nat
      (⟨2, [7], false, 1, 0, 0, 0⟩ : PCQ.BlockingQueue Nat).shutdown none rfl).1 7 [] rfl,
   (C1_get_after_shutdown_drains Nat
      (⟨2, [], true, 1, 1, 0, 0⟩ : PCQ.BlockingQueue Nat) none rfl).2 rfl⟩

/-- C2: From any successfully constructed queue, after any sequence of
`put`/`get`/`clear`/`shutdown` calls the size stays between 0 and the
capacity, the capacity never changes, and a `put` on a buffer already at
capacity either blocks or returns failure without touching the buffer. -/
theorem C2_size_within_capacity (α : Type) (c : Int) (q0 : PCQ.BlockingQueue α)
    (h0 : PCQ.BlockingQueue.init α c = .ok q0) (ops : List (PCQ.QueueOp α)) :
    0 ≤ (PCQ.runOps q0 ops).size ∧
    (PCQ.runOps q0 ops).size ≤ (PCQ.runOps q0 ops).capacity ∧
    (PCQ.runOps q0 ops).capacity = q0.capacity ∧
    (∀ (q : PCQ.BlockingQueue α) (x : α) (t : Option Nat),
      q.capacity ≤ q.size →
      q.put x t = none ∨ ∃ q', q.put x t = some (false, q') ∧ q'._queue = q._queue) := by
  obtain ⟨hc, hq0⟩ := PCQ.init_ok α c q0 h0
  refine ⟨Nat.zero_le _, ?_, PCQ.runOps_capacity ops q0,
    fun q x t h => PCQ.put_full_no_append q x t h⟩
  apply PCQ.runOps_size_le
  rw [hq0]
  simp

/-- Witness for C2: capacity 2, three puts (one must be refused), one get,
then shutdown — the final size is within the capacity. -/
theorem C2_size_within_capacity_witness :
    (PCQ.runOps (⟨2, [], false, 0, 0, 0, 0⟩ : PCQ.BlockingQueue Nat)
      [PCQ.QueueOp.put 5 none, PCQ.QueueOp.put 6 none, PCQ.QueueOp.put 7 (some 1),
       PCQ.QueueOp.get (some 0), PCQ.QueueOp.shutdown]).size ≤
    (PCQ.runOps (⟨2, [], false, 0, 0, 0, 0⟩ : PCQ.BlockingQueue Nat)
      [PCQ.QueueOp.put 5 none, PCQ.QueueOp.put 6 none, PCQ.QueueOp.put 7 (some 1),
       PCQ.QueueOp.get (some 0), PCQ.QueueOp.shutdown]).capacity :=
  (C2_size_within_capacity Nat 2 ⟨2, [], false, 0, 0, 0, 0⟩ rfl
    [PCQ.QueueOp.put 5 none, PCQ.QueueOp.put 6 none, PCQ.QueueOp.put 7 (some 1),
     PCQ.QueueOp.get (some 0), PCQ.QueueOp.shutdown]).2.1

/-- C3: Strict FIFO — starting from an empty, non-shut-down queue whose
capacity fits the whole list, putting `x1..xn` in order succeeds and the
next `n` gets return `x1..xn` in the same order; moreover every successful
`get` (anywhere) removes exactly the oldest buffered item. -/
theorem C3_fifo_order (α : Type) (q : PCQ.BlockingQueue α) (xs : List α)
    (hs : q._shutdown = false) (hempty : q._queue = [])
    (hcap : xs.length ≤ q.capacity) :
    (PCQ.putList q xs).1 = true ∧
    (PCQ.getList (PCQ.putList q xs).2 xs.length).1 = xs ∧
    (∀ (r r' : PCQ.BlockingQueue α) (t : Option Nat) (b : Bool) (y : α),
      r.get t = some (b, some y, r') → b = true ∧ r._queue = y :: r'._queue) := by
  have hlen : q._queue.length + xs.length ≤ q._capacity := by
    rw [hempty]
    simpa using hcap
  have hput := PCQ.putList_ok xs q hs hlen
  refine ⟨by rw [hput], ?_, fun r r' t b y h => PCQ.get_success_pops r t b y r' h⟩
  rw [hput]
  exact PCQ.getList_fst xs _ (by simp [hempty])

/-- Witness for C3: puts of `[10, 20]` into an empty capacity-3 queue all
succeed and the next two gets return `[10, 20]`. -/
theorem C3_fifo_order_witness :
    (PCQ.putList (⟨3, [], false, 0, 0, 0, 0⟩ : PCQ.BlockingQueue Nat) [10, 20]).1 = true ∧
    (PCQ.getList (PCQ.putList (⟨3, [], false, 0, 0, 0, 0⟩ : PCQ.BlockingQueue Nat)
      [10, 20]).2 2).1 = [10, 20] :=
  ⟨(C3_fifo_order Nat ⟨3, [], false, 0, 0, 0, 0⟩ [10, 20] rfl rfl (by decide)).1,
   (C3_fifo_order Nat ⟨3, [], false, 0, 0, 0, 0⟩ [10, 20] rfl rfl (by decide)).2.1⟩

/-- C4: Construction fails exactly when the requested capacity is below 1;
otherwise it yields the queue with that capacity, an empty buffer, the
shutdown flag unset, size 0 and all four statistics counters zero. -/
theorem C4_construction (α : Type) (c : Int) :
    (c < 1 → PCQ.BlockingQueue.init α c = .error "Capacity must be at least 1") ∧
    (1 ≤ c → ∃ q : PCQ.BlockingQueue α, PCQ.BlockingQueue.init α c = .ok q ∧
      q.capacity = c.toNat ∧ q._queue = [] ∧ q._shutdown = false ∧ q.size = 0 ∧
      q._total_items_added = 0 ∧ q._total_items_removed = 0 ∧
      q._total_blocked_puts = 0 ∧ q._total_blocked_gets = 0) := by
  constructor
  · intro h
    simp [PCQ.BlockingQueue.init, h]
  · intro h
    exact ⟨{ _capacity := c.toNat
             _queue := []
             _shutdown := false
             _total_items_added := 0
             _total_items_removed := 0
             _total_blocked_puts := 0
             _total_blocked_gets := 0 },
      by simp [PCQ.BlockingQueue.init, not_lt.2 h], rfl, rfl, rfl, rfl, rfl, rfl, rfl, rfl⟩

/-- Witness for C4: capacity 0 is refused, capacity 3 accepted with the
fresh zeroed state. -/
theorem C4_construction_witness :
    PCQ.BlockingQueue.init Nat 0 = .error "Capacity must be at least 1" ∧
    ∃ q : PCQ.BlockingQueue Nat, PCQ.BlockingQueue.init Nat 3 = .ok q ∧
      q.capacity = (3 : Int).toNat ∧ q._queue = [] ∧ q._shutdown = false ∧ q.size = 0 ∧
      q._total_items_added = 0 ∧ q._total_items_removed = 0 ∧
      q._total_blocked_puts = 0 ∧ q._total_blocked_gets = 0 :=
  ⟨(C4_construction Nat 0).1 (by decide), (C4_construction Nat 3).2 (by decide)⟩

/-- C5: `shutdown()` is idempotent (a second call changes nothing) and
latching (`is_shutdown` is true afterwards and stays true under every
further operation sequence), and it leaves the buffer, size and all
statistics counters untouched. -/
theorem C5_shutdown_idempotent_latching (α : Type) (q : PCQ.BlockingQueue α)
    (ops : List (PCQ.QueueOp α)) :
    q.shutdown.shutdown = q.shutdown ∧
    q.shutdown.is_shutdown = true ∧
    (PCQ.runOps q.shutdown ops).is_shutdown = true ∧
    q.shutdown._queue = q._queue ∧
    q.shutdown.size = q.size ∧
    q.shutdown.get_statistics.total_items_added = q.get_statistics.total_items_added ∧
    q.shutdown.get_statistics.total_items_removed = q.get_statistics.total_items_removed ∧
    q.shutdown.get_statistics.blocked_puts = q.get_statistics.blocked_puts ∧
    q.shutdown.get_statistics.blocked_gets = q.get_statistics.blocked_gets :=
  ⟨rfl, rfl, PCQ.runOps_shutdown_latch ops q.shutdown rfl, rfl, rfl, rfl, rfl, rfl, rfl⟩

/-- C6: Non-blocking and post-shutdown edges — `put(timeout=0)` on a full
non-shut-down queue fails without appending, `get(timeout=0)` on an empty
non-shut-down queue fails with no item, and on a shut-down queue a
timeout-less `put` fails immediately (whatever the fullness) while a
timeout-less `get` returns immediately, with failure when empty. -/
theorem C6_nonblocking_edges (α : Type) (q : PCQ.BlockingQueue α) (x : α) :
    (q.is_full = true → q._shutdown = false →
      q.put x (some 0) = some (false, { q with
        _total_blocked_puts := q._total_blocked_puts + 1 })) ∧
    (q.is_empty = true → q._shutdown = false →
      q.get (some 0) = some (false, none, { q with
        _total_blocked_gets := q._total_blocked_gets + 1 })) ∧
    (q._shutdown = true → q.put x none = some (false, q)) ∧
    (q._shutdown = true → (∃ r, q.get none = some r) ∧
      (q._queue = [] → q.get none = some (false, none, q))) := by
  refine ⟨?_, ?_, ?_, ?_⟩
  · intro hf hs
    exact PCQ.BlockingQueue.put_of_full_timeout q x 0
      (by simpa [PCQ.BlockingQueue.is_full] using hf) hs
  · intro he hs
    exact PCQ.BlockingQueue.get_of_nil_timeout q 0
      (by simpa [PCQ.BlockingQueue.is_empty, List.length_eq_zero] using he) hs
  · intro hs
    exact PCQ.BlockingQueue.put_of_shutdown q x none hs
  · intro hs
    constructor
    · cases hq : q._queue with
      | nil => exact ⟨_, PCQ.BlockingQueue.get_of_nil_shutdown q none hq hs⟩
      | cons y rest => exact ⟨_, PCQ.BlockingQueue.get_of_cons q none y rest hq⟩
    · intro hq
      exact PCQ.BlockingQueue.get_of_nil_shutdown q none hq hs

/-- Witness for C6 on concrete capacity-1 queues: full try-once put, empty
try-once get, and the two post-shutdown cases. -/
theorem C6_nonblocking_edges_witness :
    (⟨1, [4], false, 1, 0, 0, 0⟩ : PCQ.BlockingQueue Nat).put 9 (some 0) =
      some (false, ⟨1, [4], false, 1, 0, 1, 0⟩) ∧
    (⟨1, [], false, 0, 0, 0, 0⟩ : PCQ.BlockingQueue Nat).get (some 0) =
      some (false, none, ⟨1, [], false, 0, 0, 0, 1⟩) ∧
    (⟨1, [4], true, 1, 0, 0, 0⟩ : PCQ.BlockingQueue Nat).put 9 none =
      some (false, ⟨1, [4], true, 1, 0, 0, 0⟩) ∧
    (⟨1, [], true, 0, 0, 0, 0⟩ : PCQ.BlockingQueue Nat).get none =
      some (false, none, ⟨1, [], true, 0, 0, 0, 0⟩) :=
  ⟨(C6_nonblocking_edges Nat ⟨1, [4], false, 1, 0, 0, 0⟩ 9).1 rfl rfl,
   (C6_nonblocking_edges Nat ⟨1, [], false, 0, 0, 0, 0⟩ 9).2.1 rfl rfl,
   (C6_nonblocking_edges Nat ⟨1, [4], true, 1, 0, 0, 0⟩ 9).2.2.1 rfl,
   ((C6_nonblocking_edges Nat ⟨1, [], true, 0, 0, 0, 0⟩ 9).2.2.2 rfl).2 rfl⟩

/-- C7 counterexample: the claim says the stop signal is checked before the
next item is read, so that once the signal is set no further item is
consumed from the source.  But `Producer.run` iterates `for item in
self._source`, which advances the source iterator *before* the stop check:
with the stop event set from the start and the one-item source `[0]`, the
run still reads 1 item (component `.2`), not 0. -/
theorem C7_stop_check_counterexample :
    ¬ (PCQ.producerRun (fun _ => true) (fun _ => true) [(0 : Nat)] 0).2 = 0 := by
  decide

/-- C7 (amended): in each producer iteration the next item is read from the
source before the stop signal is checked; when the signal is observed set,
the loop breaks having read exactly that one item, neither putting nor
counting it; when `put` returns false the loop likewise ends with that one
read and no count; when `put` succeeds the produced-count is incremented
exactly once for that item. -/
theorem C7_producer_loop (α : Type) (stopAt putRes : Nat → Bool) (x : α)
    (xs : List α) (i : Nat) :
    (stopAt i = true → PCQ.producerRun stopAt putRes (x :: xs) i = (0, 1)) ∧
    (stopAt i = false → putRes i = false →
      PCQ.producerRun stopAt putRes (x :: xs) i = (0, 1)) ∧
    (stopAt i = false → putRes i = true →
      PCQ.producerRun stopAt putRes (x :: xs) i =
        ((PCQ.producerRun stopAt putRes xs (i + 1)).1 + 1,
         (PCQ.producerRun stopAt putRes xs (i + 1)).2 + 1)) := by
  refine ⟨fun h => ?_, fun h hp => ?_, fun h hp => ?_⟩
  · simp [PCQ.producerRun, h]
  · simp [PCQ.producerRun, h, hp]
  · simp [PCQ.producerRun, h, hp]

/-- Witness for C7 (amended): stop set at iteration 0 on source `[5]` —
the loop reads the one item and produces nothing. -/
theorem C7_producer_loop_witness :
    PCQ.producerRun (fun _ => true) (fun _ => true) [(5 : Nat)] 0 = (0, 1) :=
  (C7_producer_loop Nat (fun _ => true) (fun _ => true) 5 [] 0).1 rfl

/-- C8: The consumer loop never exits while the stop signal stays unset and
no failed `get` coincides with shutdown-and-empty; and whenever it does
exit, some iteration observed the stop signal set or a failed `get` with
the queue shut down and empty. -/
theorem C8_consumer_exit_conditions (α : Type) (stopAt : Nat → Bool)
    (getAt : Nat → Option α) (sdAt emAt : Nat → Bool) (fuel i : Nat) :
    ((∀ j, stopAt j = false) →
     (∀ j, getAt j = none → ¬ (sdAt j = true ∧ emAt j = true)) →
      (PCQ.consumerRun stopAt getAt sdAt emAt fuel i).2 = none) ∧
    (∀ r, (PCQ.consumerRun stopAt getAt sdAt emAt fuel i).2 = some r →
      ∃ j, stopAt j = true ∨ (getAt j = none ∧ sdAt j = true ∧ emAt j = true)) := by
  induction fuel generalizing i with
  | zero =>
    exact ⟨fun _ _ => rfl, fun r h => by cases h⟩
  | succ fuel ih =>
    constructor
    · intro h1 h2
      rw [PCQ.consumerRun]
      rw [h1 i]
      cases hg : getAt i with
      | none =>
        have hb : (sdAt i && emAt i) = false := by
          have := h2 i hg
          cases hsd : sdAt i <;> cases hem : emAt i <;> simp_all
        simp only [hb, if_neg, Bool.false_eq_true, if_false]
        exact (ih (i + 1)).1 h1 h2
      | some x =>
        simp only []
        exact (ih (i + 1)).1 h1 h2
    · intro r h
      rw [PCQ.consumerRun] at h
      by_cases hstop : stopAt i = true
      · exact ⟨i, Or.inl hstop⟩
      · have hstop' : stopAt i = false := by simpa using hstop
        rw [hstop'] at h
        cases hg : getAt i with
        | none =>
          rw [hg] at h
          by_cases hse : (sdAt i && emAt i) = true
          · exact ⟨i, Or.inr ⟨hg, by simpa [Bool.and_eq_true] using hse⟩⟩
          · have hse' : (sdAt i && emAt i) = false := by simpa using hse
            rw [hse'] at h
            simp only [Bool.false_eq_true, if_false] at h
            exact (ih (i + 1)).2 r h
        | some x =>
          rw [hg] at h
          simp only [Bool.false_eq_true, if_false] at h
          exact (ih (i + 1)).2 r h

/-- Witness for C8: stop never set, every `get` a timeout, queue never
shut down — after 3 iterations the consumer is still looping. -/
theorem C8_consumer_exit_conditions_witness :
    (PCQ.consumerRun (fun _ => false) (fun _ => (none : Option Nat))
      (fun _ => false) (fun _ => true) 3 0).2 = none :=
  (C8_consumer_exit_conditions Nat (fun _ => false) (fun _ => none)
    (fun _ => false) (fun _ => true) 3 0).1 (fun _ => rfl) (fun j _ => by simp)

/-- C9: `clear()` empties the buffer and changes nothing else: the
shutdown flag, the capacity and all four statistics counters are exactly
those of the state before the call. -/
theorem C9_clear_frame (α : Type) (q : PCQ.BlockingQueue α) :
    q.clear.size = 0 ∧
    q.clear._shutdown = q._shutdown ∧
    q.clear.capacity = q.capacity ∧
    q.clear.get_statistics.total_items_added = q.get_statistics.total_items_added ∧
    q.clear.get_statistics.total_items_removed = q.get_statistics.total_items_removed ∧
    q.clear.get_statistics.blocked_puts = q.get_statistics.blocked_puts ∧
    q.clear.get_statistics.blocked_gets = q.get_statistics.blocked_gets :=
  ⟨rfl, rfl, rfl, rfl, rfl, rfl, rfl⟩

/-- C10: Along any clear-free operation sequence from a fresh queue, the
counter balance `total_items_added = total_items_removed + size` holds, so
`get_statistics` always reports `current_size` as the difference of its
added and removed counters; `clear` on a non-empty buffer breaks the
balance. -/
theorem C10_counter_balance (α : Type) (c : Int) (q0 : PCQ.BlockingQueue α)
    (h0 : PCQ.BlockingQueue.init α c = .ok q0) (ops : List (PCQ.QueueOp α))
    (hops : PCQ.QueueOp.clear ∉ ops) :
    PCQ.statInv (PCQ.runOps q0 ops) ∧
    (PCQ.runOps q0 ops).get_statistics.total_items_removed +
      (PCQ.runOps q0 ops).get_statistics.current_size =
      (PCQ.runOps q0 ops).get_statistics.total_items_added ∧
    (∀ q : PCQ.BlockingQueue α, PCQ.statInv q → q._queue ≠ [] →
      ¬ PCQ.statInv q.clear) := by
  obtain ⟨hc, hq0⟩ := PCQ.init_ok α c q0 h0
  have h1 : PCQ.statInv (PCQ.runOps q0 ops) := by
    apply PCQ.runOps_statInv ops hops
    rw [hq0]
    simp [PCQ.statInv]
  refine ⟨h1, ?_, ?_⟩
  · unfold PCQ.statInv at h1
    simp [PCQ.BlockingQueue.get_statistics]
    omega
  · intro q hq hne
    unfold PCQ.statInv at hq ⊢
    have hlen : q._queue.length ≠ 0 := fun h => hne (List.length_eq_zero.1 h)
    simp [PCQ.BlockingQueue.clear]
    omega

/-- Witness for C10: two puts and one get from a fresh capacity-2 queue
keep removed + current size equal to added. -/
theorem C10_counter_balance_witness :
    (PCQ.runOps (⟨2, [], false, 0, 0, 0, 0⟩ : PCQ.BlockingQueue Nat)
      [PCQ.QueueOp.put 5 none, PCQ.QueueOp.put 6 none,
       PCQ.QueueOp.get (some 0)]).get_statistics.total_items_removed +
    (PCQ.runOps (⟨2, [], false, 0, 0, 0, 0⟩ : PCQ.BlockingQueue Nat)
      [PCQ.QueueOp.put 5 none, PCQ.QueueOp.put 6 none,
       PCQ.QueueOp.get (some 0)]).get_statistics.current_size =
    (PCQ.runOps (⟨2, [], false, 0, 0, 0, 0⟩ : PCQ.BlockingQueue Nat)
      [PCQ.QueueOp.put 5 none, PCQ.QueueOp.put 6 none,
       PCQ.QueueOp.get (some 0)]).get_statistics.total_items_added :=
  (C10_counter_balance Nat 2 ⟨2, [], false, 0, 0, 0, 0⟩ rfl
    [PCQ.QueueOp.put 5 none, PCQ.QueueOp.put 6 none, PCQ.QueueOp.get (some 0)]
    (by decide)).2.1
